import Mathlib

/-!
Verification of the bouncing-layer animation core (`moveLayer`,
`startAnimation` and the resize listener of the animation script) against its
design document.

The motion state of the script consists of the element's top-left corner
`(x, y)`, the signed horizontal velocity `dx`, and the vertical-direction flag
`goingDown`.  The script also keeps a global `dy`, but `dy` is initialised to
`0` and the only assignment to it (`dy = 0` in `startAnimation`) keeps it
`0`, so the `y += dy` line is the identity and `dy` is omitted from the
embedding.  Every motion quantity of the script is an integer number of
pixels: the element size comes from `parseInt` (or the integer defaults
150/100), the start position is `(0, 150)`, the velocity is `±3`, the
viewport sizes are integers, and `moveLayer` only ever adds and subtracts
these, so the dynamics are embedded over `ℤ`.  The fractional configuration
input (opacity, via `parseFloat`) is embedded over `ℚ` further below.
-/

namespace Bouncing

/-- Element size `(width, height)`, fixed for a run (`rect.width`/`rect.height`). -/
structure Size where
  width : ℤ
  height : ℤ
deriving DecidableEq

/-- Viewport bounds (`window.innerWidth`/`window.innerHeight`). -/
structure Bounds where
  width : ℤ
  height : ℤ
deriving DecidableEq

/-- The script's mutable motion state: position `(x, y)` of the layer's
top-left corner, horizontal velocity `dx`, and the vertical-direction flag
`goingDown` (`true` = DESCENDING, `false` = ASCENDING). -/
structure MotionState where
  x : ℤ
  y : ℤ
  dx : ℤ
  goingDown : Bool
deriving DecidableEq

/-- The value of `y` right after the horizontal-wall block of `moveLayer`
(the two `if (dx > 0 && x + w >= winW) / else if (dx < 0 && x <= 0)`
branches, each of which performs `y += goingDown ? h : -h`), before the
vertical-phase test.  Here `s.x + s.dx` is the tentative abscissa `x += dx`
of the source. -/
def preClampY (sz : Size) (b : Bounds) (s : MotionState) : ℤ :=
  if s.dx > 0 ∧ s.x + s.dx + sz.width ≥ b.width then
    s.y + (if s.goingDown then sz.height else -sz.height)
  else if s.dx < 0 ∧ s.x + s.dx ≤ 0 then
    s.y + (if s.goingDown then sz.height else -sz.height)
  else s.y

/-- The value of `dx` after the horizontal-wall block of `moveLayer`
(`dx = -dx` in each of the two reflection branches). -/
def newDx (sz : Size) (b : Bounds) (s : MotionState) : ℤ :=
  if s.dx > 0 ∧ s.x + s.dx + sz.width ≥ b.width then -s.dx
  else if s.dx < 0 ∧ s.x + s.dx ≤ 0 then -s.dx
  else s.dx

/-- One frame of the animation: the body of the source's `moveLayer`.
First `x += dx` (the `y += dy` line is the identity, see the file header),
then the horizontal-wall block (reflection plus vertical shift, split out as
`preClampY`/`newDx`), then the vertical-phase test `if (goingDown && y + h >=
winH) ... else if (!goingDown && y <= 0) ...` which clamps `y` and toggles
`goingDown`.  The horizontal position keeps the tentative value `x` in every
branch. -/
def moveLayer (sz : Size) (b : Bounds) (s : MotionState) : MotionState :=
  if s.goingDown = true ∧ preClampY sz b s + sz.height ≥ b.height then
    { x := s.x + s.dx, y := b.height - sz.height, dx := newDx sz b s, goingDown := false }
  else if s.goingDown = false ∧ preClampY sz b s ≤ 0 then
    { x := s.x + s.dx, y := 0, dx := newDx sz b s, goingDown := true }
  else
    { x := s.x + s.dx, y := preClampY sz b s, dx := newDx sz b s, goingDown := s.goingDown }

/-- The motion-state effect of the source's `startAnimation`:
`layer.style.left = "0px"`, `layer.style.top = "150px"`, `dx = Math.abs(dx)`,
`dy = 0`, `goingDown = true`.  It maps any prior motion state to the fixed
start state. -/
def startReset (s : MotionState) : MotionState :=
  { x := 0, y := 150, dx := |s.dx|, goingDown := true }

/-- The state right after `startAnimation` when the horizontal speed
magnitude is `d` (the source's global starts at `dx = 3` and `startAnimation`
takes its absolute value, so the observed system has `d = 3`). -/
def startState (d : ℤ) : MotionState :=
  { x := 0, y := 150, dx := d, goingDown := true }

/-- `n` animation frames: `n`-fold iteration of `moveLayer` with fixed size
and bounds. -/
def stepN (sz : Size) (b : Bounds) : ℕ → MotionState → MotionState
  | 0, s => s
  | n + 1, s => moveLayer sz b (stepN sz b n s)

/-- Runs frames until the first one on which `dx` changes (a horizontal
reflection), up to `fuel` frames; returns the frame index (counted from 1)
and the state at the end of that frame. -/
def firstFlip (sz : Size) (b : Bounds) : ℕ → MotionState → Option (ℕ × MotionState)
  | 0, _ => none
  | fuel + 1, s =>
    let s1 := moveLayer sz b s
    if s1.dx = s.dx then
      match firstFlip sz b fuel s1 with
      | none => none
      | some p => some (p.1 + 1, p.2)
    else
      some (1, s1)

/-- The value of `y` after steps 2–3 of the design document's update
algorithm, written from the spec's words: "if moving right and `x' + width ≥
bounds.width`, or moving left and `x' ≤ 0`: reflect", and "On a horizontal
reflection event, apply a vertical shift of `+height` if `verticalPhase ==
DESCENDING`, or `-height` if `verticalPhase == ASCENDING`, to `y`". -/
def specY1 (sz : Size) (b : Bounds) (s : MotionState) : ℤ :=
  if (s.dx > 0 ∧ s.x + s.dx + sz.width ≥ b.width) ∨ (s.dx < 0 ∧ s.x + s.dx ≤ 0) then
    s.y + (if s.goingDown then sz.height else -sz.height)
  else s.y

/-- The value of `velocityX` after step 2 of the design document's update
algorithm, written from the spec's words: on a horizontal reflection event
`velocityX' = -velocityX`, otherwise `velocityX' = velocityX`. -/
def specDx1 (sz : Size) (b : Bounds) (s : MotionState) : ℤ :=
  if (s.dx > 0 ∧ s.x + s.dx + sz.width ≥ b.width) ∨ (s.dx < 0 ∧ s.x + s.dx ≤ 0) then
    -s.dx
  else s.dx

/-- The update step as the design document specifies it (§4.2, steps 1–5):
tentative move `x' = x + velocityX`; horizontal reflection with vertical
shift (`specDx1`, `specY1`); then the vertical phase test, checked after the
shift and independent of whether a reflection occurred: DESCENDING with
`y + height ≥ bounds.height` clamps `y = bounds.height - height` and flips to
ASCENDING, ASCENDING with `y ≤ 0` clamps `y = 0` and flips to DESCENDING.
The resulting abscissa is the pre-reflection `x` plus the non-flipped delta,
i.e. the tentative `x'`, per the spec's one-frame-overshoot paragraph. -/
def specStep (sz : Size) (b : Bounds) (s : MotionState) : MotionState :=
  if s.goingDown = true ∧ specY1 sz b s + sz.height ≥ b.height then
    { x := s.x + s.dx, y := b.height - sz.height, dx := specDx1 sz b s, goingDown := false }
  else if s.goingDown = false ∧ specY1 sz b s ≤ 0 then
    { x := s.x + s.dx, y := 0, dx := specDx1 sz b s, goingDown := true }
  else
    { x := s.x + s.dx, y := specY1 sz b s, dx := specDx1 sz b s, goingDown := s.goingDown }

lemma preClampY_eq_specY1 (sz : Size) (b : Bounds) (s : MotionState) :
    preClampY sz b s = specY1 sz b s := by
  unfold preClampY specY1
  split_ifs <;> first | rfl | tauto

lemma newDx_eq_specDx1 (sz : Size) (b : Bounds) (s : MotionState) :
    newDx sz b s = specDx1 sz b s := by
  unfold newDx specDx1
  split_ifs <;> first | rfl | tauto

lemma moveLayer_x (sz : Size) (b : Bounds) (s : MotionState) :
    (moveLayer sz b s).x = s.x + s.dx := by
  unfold moveLayer
  split_ifs <;> rfl

lemma moveLayer_dx (sz : Size) (b : Bounds) (s : MotionState) :
    (moveLayer sz b s).dx = newDx sz b s := by
  unfold moveLayer
  split_ifs <;> rfl

lemma newDx_cases (sz : Size) (b : Bounds) (s : MotionState) :
    newDx sz b s = s.dx ∨ newDx sz b s = -s.dx := by
  unfold newDx
  split_ifs <;> simp

lemma abs_moveLayer_dx (sz : Size) (b : Bounds) (s : MotionState) :
    |(moveLayer sz b s).dx| = |s.dx| := by
  rw [moveLayer_dx]
  rcases newDx_cases sz b s with h | h <;> rw [h]
  · exact abs_neg s.dx

lemma abs_stepN_dx (sz : Size) (b : Bounds) (n : ℕ) (s : MotionState) :
    |(stepN sz b n s).dx| = |s.dx| := by
  induction n with
  | zero => rfl
  | succ n ih => rw [stepN, abs_moveLayer_dx, ih]

/-- Claim C1: for every state and bounds, one frame of the source's
`moveLayer` computes exactly the update step of the design document: the
horizontal reflection event shifts `y` by `+height` (DESCENDING) or
`-height` (ASCENDING) before the vertical phase test, and the phase test
then clamps `y` to `bounds.height - height` (flipping to ASCENDING) or to
`0` (flipping to DESCENDING), on every step regardless of reflection. -/
theorem moveLayer_eq_specStep (sz : Size) (b : Bounds) (s : MotionState) :
    moveLayer sz b s = specStep sz b s := by
  unfold moveLayer specStep
  rw [preClampY_eq_specY1, newDx_eq_specDx1]

/-- Claim C3: a step never clamps the horizontal position (the resulting `x`
is always the pre-reflection `x` plus the non-flipped delta `dx`), the
velocity flips sign exactly on the wall-contact condition, and the magnitude
`|dx|` is preserved by every step and hence constant across any number of
steps. -/
theorem moveLayer_elastic_no_clamp (sz : Size) (b : Bounds) (s : MotionState) (n : ℕ) :
    (moveLayer sz b s).x = s.x + s.dx ∧
    (moveLayer sz b s).dx =
      (if (s.dx > 0 ∧ s.x + s.dx + sz.width ≥ b.width) ∨ (s.dx < 0 ∧ s.x + s.dx ≤ 0) then
        -s.dx else s.dx) ∧
    |(moveLayer sz b s).dx| = |s.dx| ∧
    |(stepN sz b n s).dx| = |s.dx| := by
  refine ⟨moveLayer_x sz b s, ?_, abs_moveLayer_dx sz b s, abs_stepN_dx sz b n s⟩
  rw [moveLayer_dx, newDx_eq_specDx1]
  rfl

/-- Claim C5: whenever a step changes the vertical phase, the new `y` is the
corresponding vertical extreme: `bounds.height - height` when the step was
DESCENDING (and it flips to ASCENDING), `0` when it was ASCENDING (and it
flips to DESCENDING); the flag only ever toggles between its two values. -/
theorem phase_toggle_at_extremes (sz : Size) (b : Bounds) (s : MotionState)
    (h : (moveLayer sz b s).goingDown ≠ s.goingDown) :
    (moveLayer sz b s).y = (if s.goingDown = true then b.height - sz.height else 0) ∧
    (moveLayer sz b s).goingDown = !s.goingDown := by
  unfold moveLayer at h ⊢
  by_cases h1 : s.goingDown = true ∧ preClampY sz b s + sz.height ≥ b.height
  · rw [if_pos h1] at h ⊢
    simp [h1.1]
  · rw [if_neg h1] at h ⊢
    by_cases h2 : s.goingDown = false ∧ preClampY sz b s ≤ 0
    · rw [if_pos h2] at h ⊢
      simp [h2.1]
    · rw [if_neg h2] at h ⊢
      simp at h

theorem phase_toggle_at_extremes_witness :
    ((moveLayer ⟨150, 100⟩ ⟨800, 600⟩ ⟨0, 500, 3, true⟩).goingDown ≠
      (⟨0, 500, 3, true⟩ : MotionState).goingDown) ∧
    ((moveLayer ⟨150, 100⟩ ⟨800, 600⟩ ⟨0, 500, 3, true⟩).y =
      (if (⟨0, 500, 3, true⟩ : MotionState).goingDown = true then
        (⟨800, 600⟩ : Bounds).height - (⟨150, 100⟩ : Size).height else 0) ∧
     (moveLayer ⟨150, 100⟩ ⟨800, 600⟩ ⟨0, 500, 3, true⟩).goingDown =
      !(⟨0, 500, 3, true⟩ : MotionState).goingDown) :=
  ⟨by decide, phase_toggle_at_extremes ⟨150, 100⟩ ⟨800, 600⟩ ⟨0, 500, 3, true⟩ (by decide)⟩

/-- Claim C10: within one step the two horizontal wall tests are mutually
exclusive (they are guarded by opposite signs of `dx`), the two vertical
phase tests are mutually exclusive (guarded by opposite values of the flag),
`dx` changes sign at most once, and the vertical displacement applied before
the boundary clamp is exactly `0`, `+height` or `-height`. -/
theorem step_single_flip_exclusive (sz : Size) (b : Bounds) (s : MotionState) :
    ¬((s.dx > 0 ∧ s.x + s.dx + sz.width ≥ b.width) ∧ (s.dx < 0 ∧ s.x + s.dx ≤ 0)) ∧
    ¬((s.goingDown = true ∧ preClampY sz b s + sz.height ≥ b.height) ∧
      (s.goingDown = false ∧ preClampY sz b s ≤ 0)) ∧
    (preClampY sz b s - s.y = 0 ∨ preClampY sz b s - s.y = sz.height ∨
      preClampY sz b s - s.y = -sz.height) ∧
    (newDx sz b s = s.dx ∨ newDx sz b s = -s.dx) := by
  refine ⟨?_, ?_, ?_, newDx_cases sz b s⟩
  · rintro ⟨⟨h1, -⟩, ⟨h2, -⟩⟩
    omega
  · rintro ⟨⟨h1, -⟩, ⟨h2, -⟩⟩
    rw [h1] at h2
    exact Bool.noConfusion h2
  · unfold preClampY
    split_ifs <;> simp

/-- Inductive invariant of the run started by `startAnimation` with speed
magnitude `d`: `y` is non-negative and, once the phase is ASCENDING, inside
the vertical band; `dx` is `d` (moving right, `x` in bounds) or `-d` (moving
left, at least `d` from the left wall, at most `d` past the right wall); and
`x` is a natural multiple of `d` (the run starts at `x = 0` and `x` only ever
changes by `±d`). -/
def Inv (sz : Size) (b : Bounds) (d : ℤ) (s : MotionState) : Prop :=
  0 ≤ s.y ∧
  (s.goingDown = false → s.y + sz.height ≤ b.height) ∧
  ((s.dx = d ∧ 0 ≤ s.x ∧ s.x + sz.width < b.width) ∨
    (s.dx = -d ∧ d ≤ s.x ∧ s.x + sz.width < b.width + d)) ∧
  ∃ k : ℕ, s.x = d * k

lemma preClampY_ge (sz : Size) (b : Bounds) (s : MotionState)
    (hh : 0 ≤ sz.height) (hgd : s.goingDown = true) : s.y ≤ preClampY sz b s := by
  unfold preClampY
  split_ifs <;> simp_all

lemma preClampY_le (sz : Size) (b : Bounds) (s : MotionState)
    (hh : 0 ≤ sz.height) (hgd : s.goingDown = false) : preClampY sz b s ≤ s.y := by
  unfold preClampY
  split_ifs <;> simp_all

lemma y_after (sz : Size) (b : Bounds) (s : MotionState)
    (hh : 0 < sz.height) (hbh : sz.height ≤ b.height)
    (hy0 : 0 ≤ s.y) (hyup : s.goingDown = false → s.y + sz.height ≤ b.height) :
    0 ≤ (moveLayer sz b s).y ∧ (moveLayer sz b s).y + sz.height ≤ b.height := by
  unfold moveLayer
  split_ifs with h1 h2
  · constructor <;> dsimp only <;> omega
  · constructor <;> dsimp only <;> omega
  · dsimp only
    cases hgd : s.goingDown with
    | true =>
      have hge := preClampY_ge sz b s hh.le hgd
      have hlt : ¬(preClampY sz b s + sz.height ≥ b.height) := fun hc => h1 ⟨hgd, hc⟩
      omega
    | false =>
      have hle := preClampY_le sz b s hh.le hgd
      have hpos : ¬(preClampY sz b s ≤ 0) := fun hc => h2 ⟨hgd, hc⟩
      have := hyup hgd
      omega

lemma x_after (sz : Size) (b : Bounds) (d : ℤ) (s : MotionState)
    (hd : 0 < d) (_hbw : sz.width < b.width)
    (hx : (s.dx = d ∧ 0 ≤ s.x ∧ s.x + sz.width < b.width) ∨
      (s.dx = -d ∧ d ≤ s.x ∧ s.x + sz.width < b.width + d))
    (hk : ∃ k : ℕ, s.x = d * k) :
    (((moveLayer sz b s).dx = d ∧ 0 ≤ (moveLayer sz b s).x ∧
        (moveLayer sz b s).x + sz.width < b.width) ∨
      ((moveLayer sz b s).dx = -d ∧ d ≤ (moveLayer sz b s).x ∧
        (moveLayer sz b s).x + sz.width < b.width + d)) ∧
    ∃ k : ℕ, (moveLayer sz b s).x = d * k := by
  obtain ⟨k, hkx⟩ := hk
  rw [moveLayer_x, moveLayer_dx]
  unfold newDx
  split_ifs with hA hB
  · -- right-wall contact: dx was positive, so the left branch of hx holds
    rcases hx with ⟨hdx, hx0, hxw⟩ | ⟨hdx, -, -⟩
    · subst hdx
      refine ⟨Or.inr ⟨rfl, by omega, by omega⟩, ⟨k + 1, ?_⟩⟩
      push_cast
      rw [hkx]
      ring
    · rw [hdx] at hA
      omega
  · -- left-wall contact: dx was negative, so the right branch of hx holds
    rcases hx with ⟨hdx, -, -⟩ | ⟨hdx, hxd, hxw⟩
    · rw [hdx] at hB
      omega
    · rw [hdx] at hB ⊢
      have hk1 : 1 ≤ k := by
        rcases Nat.eq_zero_or_pos k with h0 | h1
        · subst h0
          simp at hkx
          omega
        · exact h1
      have hcast : ((k - 1 : ℕ) : ℤ) = (k : ℤ) - 1 := by omega
      have hx' : s.x + -d = d * ((k - 1 : ℕ) : ℤ) := by
        rw [hcast, hkx]
        ring
      have hnn : 0 ≤ d * ((k - 1 : ℕ) : ℤ) := mul_nonneg hd.le (Int.natCast_nonneg _)
      have hzero : s.x + -d = 0 := by linarith [hB.2]
      refine ⟨Or.inl ⟨by ring, by omega, by omega⟩, ⟨0, by simpa using hzero⟩⟩
  · -- no wall contact this frame
    rcases hx with ⟨hdx, hx0, hxw⟩ | ⟨hdx, hxd, hxw⟩
    · rw [hdx] at hA ⊢
      have hno : ¬(s.x + d + sz.width ≥ b.width) := fun hc => hA ⟨hd, hc⟩
      refine ⟨Or.inl ⟨rfl, by omega, by omega⟩, ⟨k + 1, ?_⟩⟩
      push_cast
      rw [hkx]
      ring
    · rw [hdx] at hB ⊢
      have hneg : -d < 0 := by omega
      have hno : ¬(s.x + -d ≤ 0) := fun hc => hB ⟨hneg, hc⟩
      have hk1 : 1 ≤ k := by
        rcases Nat.eq_zero_or_pos k with h0 | h1
        · subst h0
          simp at hkx
          omega
        · exact h1
      have hcast : ((k - 1 : ℕ) : ℤ) = (k : ℤ) - 1 := by omega
      have hx' : s.x + -d = d * ((k - 1 : ℕ) : ℤ) := by
        rw [hcast, hkx]
        ring
      have hd' : d ≤ s.x + -d := by
        have hk2 : 1 ≤ k - 1 := by
          rcases Nat.lt_or_ge (k - 1) 1 with hlt | hge
          · exfalso
            have h0 : k - 1 = 0 := by omega
            rw [h0] at hx'
            simp at hx'
            omega
          · exact hge
        have hmul : d * 1 ≤ d * ((k - 1 : ℕ) : ℤ) :=
          mul_le_mul_of_nonneg_left (by exact_mod_cast hk2) hd.le
        rw [mul_one] at hmul
        linarith [hx']
      exact ⟨Or.inr ⟨rfl, hd', by omega⟩, ⟨k - 1, hx'⟩⟩

lemma inv_step (sz : Size) (b : Bounds) (d : ℤ) (s : MotionState)
    (hd : 0 < d) (hh : 0 < sz.height) (hbh : sz.height ≤ b.height)
    (hbw : sz.width < b.width) (hs : Inv sz b d s) : Inv sz b d (moveLayer sz b s) := by
  obtain ⟨hy0, hyup, hx, hk⟩ := hs
  obtain ⟨hy0', hyup'⟩ := y_after sz b s hh hbh hy0 hyup
  obtain ⟨hx', hk'⟩ := x_after sz b d s hd hbw hx hk
  exact ⟨hy0', fun _ => hyup', hx', hk'⟩

lemma inv_start (sz : Size) (b : Bounds) (d : ℤ) (hbw : sz.width < b.width) :
    Inv sz b d (startState d) := by
  unfold Inv startState
  refine ⟨by norm_num, by simp, Or.inl ⟨rfl, by norm_num, by dsimp only; omega⟩, ⟨0, by simp⟩⟩

lemma inv_reach (sz : Size) (b : Bounds) (d : ℤ) (n : ℕ)
    (hd : 0 < d) (hh : 0 < sz.height) (hbh : sz.height ≤ b.height)
    (hbw : sz.width < b.width) : Inv sz b d (stepN sz b n (startState d)) := by
  induction n with
  | zero => exact inv_start sz b d hbw
  | succ n ih => exact inv_step sz b d _ hd hh hbh hbw ih

/-- Claim C2: in a run started by `startAnimation` with speed magnitude `d`,
viewport at least as tall as the element and strictly wider than it, the
state after every frame has `0 ≤ y` and `y ≤ bounds.height - height`, has
`0 ≤ x`, and has `x + width ≤ bounds.width` except for an overshoot strictly
smaller than `|dx|`; an overshoot frame is immediately followed by a frame
back inside the right bound (one-frame overshoot). -/
theorem stepN_position_bounds (sz : Size) (b : Bounds) (d : ℤ) (n : ℕ)
    (hd : 0 < d) (hh : 0 < sz.height) (hbh : sz.height ≤ b.height)
    (hbw : sz.width < b.width) :
    0 ≤ (stepN sz b (n + 1) (startState d)).y ∧
    (stepN sz b (n + 1) (startState d)).y ≤ b.height - sz.height ∧
    0 ≤ (stepN sz b (n + 1) (startState d)).x ∧
    ((stepN sz b (n + 1) (startState d)).x + sz.width ≤ b.width ∨
      (stepN sz b (n + 1) (startState d)).x + sz.width - b.width <
        |(stepN sz b (n + 1) (startState d)).dx|) ∧
    (b.width < (stepN sz b (n + 1) (startState d)).x + sz.width →
      (stepN sz b (n + 2) (startState d)).x + sz.width ≤ b.width) := by
  have hinv := inv_reach sz b d n hd hh hbh hbw
  obtain ⟨hy0, hyup, hx, hk⟩ := hinv
  have hstep : stepN sz b (n + 1) (startState d) = moveLayer sz b (stepN sz b n (startState d)) := rfl
  have hstep2 : stepN sz b (n + 2) (startState d) =
      moveLayer sz b (stepN sz b (n + 1) (startState d)) := rfl
  obtain ⟨hy0', hyup'⟩ :=
    y_after sz b (stepN sz b n (startState d)) hh hbh hy0 hyup
  obtain ⟨hx', hk'⟩ := x_after sz b d (stepN sz b n (startState d)) hd hbw hx hk
  rw [← hstep] at hy0' hyup' hx' hk'
  refine ⟨hy0', by omega, ?_, ?_, ?_⟩
  · rcases hx' with ⟨-, h0, -⟩ | ⟨-, hdle, -⟩ <;> omega
  · rcases hx' with ⟨-, -, hw⟩ | ⟨hdx, -, hw⟩
    · exact Or.inl hw.le
    · refine Or.inr ?_
      rw [hdx, abs_neg, abs_of_pos hd]
      omega
  · intro hover
    rw [hstep2, moveLayer_x]
    rcases hx' with ⟨-, -, hw⟩ | ⟨hdx, -, hw⟩
    · omega
    · rw [hdx]
      omega

theorem stepN_position_bounds_witness :
    (0 : ℤ) < 3 ∧ (0 : ℤ) < (⟨150, 100⟩ : Size).height ∧
    (⟨150, 100⟩ : Size).height ≤ (⟨800, 600⟩ : Bounds).height ∧
    (⟨150, 100⟩ : Size).width < (⟨800, 600⟩ : Bounds).width ∧
    (0 ≤ (stepN ⟨150, 100⟩ ⟨800, 600⟩ (0 + 1) (startState 3)).y ∧
      (stepN ⟨150, 100⟩ ⟨800, 600⟩ (0 + 1) (startState 3)).y ≤
        (⟨800, 600⟩ : Bounds).height - (⟨150, 100⟩ : Size).height ∧
      0 ≤ (stepN ⟨150, 100⟩ ⟨800, 600⟩ (0 + 1) (startState 3)).x ∧
      ((stepN ⟨150, 100⟩ ⟨800, 600⟩ (0 + 1) (startState 3)).x + (⟨150, 100⟩ : Size).width ≤
          (⟨800, 600⟩ : Bounds).width ∨
        (stepN ⟨150, 100⟩ ⟨800, 600⟩ (0 + 1) (startState 3)).x + (⟨150, 100⟩ : Size).width -
            (⟨800, 600⟩ : Bounds).width <
          |(stepN ⟨150, 100⟩ ⟨800, 600⟩ (0 + 1) (startState 3)).dx|) ∧
      ((⟨800, 600⟩ : Bounds).width <
          (stepN ⟨150, 100⟩ ⟨800, 600⟩ (0 + 1) (startState 3)).x + (⟨150, 100⟩ : Size).width →
        (stepN ⟨150, 100⟩ ⟨800, 600⟩ (0 + 2) (startState 3)).x + (⟨150, 100⟩ : Size).width ≤
          (⟨800, 600⟩ : Bounds).width)) :=
  ⟨by decide, by decide, by decide, by decide,
    stepN_position_bounds ⟨150, 100⟩ ⟨800, 600⟩ 3 0 (by decide) (by decide) (by decide) (by decide)⟩

set_option maxRecDepth 100000

/-- Claim C4, counterexample: in the corner-contact scenario (150×100 element,
800×600 bounds, start (0,150), `dx = +3`, DESCENDING) the first frame on
which `x + 150 ≥ 800` triggers a reflection has tentative abscissa 651
(648 + 3, with 651 + 150 = 801 ≥ 800), not 656 as the claim states: positions
are multiples of 3 and 648 + 150 = 798 < 800 is the last non-reflecting
frame. -/
theorem corner_scenario_tentative_x_ne_656 :
    firstFlip ⟨150, 100⟩ ⟨800, 600⟩ 1000 (startState 3) =
      some (217, ⟨651, 250, -3, true⟩) ∧ (651 : ℤ) ≠ 656 := by
  constructor <;> decide

/-- Claim C4, amended: in the corner-contact scenario the frame before the
first reflection has `x = 648` (y still 150, phase DESCENDING), and the first
reflection happens on frame 217 with tentative `x = 651`: that frame flips
`dx` to `-3`, shifts `y` by +100 to 250, and does not flip the phase
(250 + 100 = 350 < 600), exactly as the claim describes apart from the
tentative abscissa. -/
theorem corner_scenario_flip_at_651 :
    stepN ⟨150, 100⟩ ⟨800, 600⟩ 216 (startState 3) = ⟨648, 150, 3, true⟩ ∧
    firstFlip ⟨150, 100⟩ ⟨800, 600⟩ 1000 (startState 3) =
      some (217, ⟨651, 250, -3, true⟩) := by
  constructor <;> decide

lemma degenerate_period (n : ℕ) :
    stepN ⟨150, 150⟩ ⟨100, 100⟩ (2 * n + 1) (startState 3) = ⟨3, -50, -3, false⟩ ∧
    stepN ⟨150, 150⟩ ⟨100, 100⟩ (2 * n + 2) (startState 3) = ⟨0, 0, 3, true⟩ := by
  induction n with
  | zero => exact ⟨by decide, by decide⟩
  | succ n ih =>
    have h1 : stepN ⟨150, 150⟩ ⟨100, 100⟩ (2 * (n + 1) + 1) (startState 3) =
        moveLayer ⟨150, 150⟩ ⟨100, 100⟩ (stepN ⟨150, 150⟩ ⟨100, 100⟩ (2 * n + 2) (startState 3)) := by
      rw [show 2 * (n + 1) + 1 = (2 * n + 2) + 1 from by ring]
      rfl
    have h2 : stepN ⟨150, 150⟩ ⟨100, 100⟩ (2 * (n + 1) + 2) (startState 3) =
        moveLayer ⟨150, 150⟩ ⟨100, 100⟩ (stepN ⟨150, 150⟩ ⟨100, 100⟩ (2 * (n + 1) + 1) (startState 3)) := by
      rw [show 2 * (n + 1) + 2 = (2 * (n + 1) + 1) + 1 from by ring]
      rfl
    have hA : stepN ⟨150, 150⟩ ⟨100, 100⟩ (2 * (n + 1) + 1) (startState 3) = ⟨3, -50, -3, false⟩ := by
      rw [h1, ih.2]
      decide
    refine ⟨hA, ?_⟩
    rw [h2, hA]
    decide

/-- Claim C6: with the element (150×150) larger than the viewport (100×100)
the code does NOT clamp defensively: already the first frame produces the
negative ordinate `y = -50` (`winH - h = 100 - 150`), and the vertical phase
flips on every single frame thereafter (runaway phase flipping), contrary to
the claim's negative-free, no-runaway-flipping requirement. -/
theorem degenerate_bounds_negative_y :
    stepN ⟨150, 150⟩ ⟨100, 100⟩ 1 (startState 3) = ⟨3, -50, -3, false⟩ ∧
    (stepN ⟨150, 150⟩ ⟨100, 100⟩ 1 (startState 3)).y < 0 ∧
    (∀ n : ℕ, (stepN ⟨150, 150⟩ ⟨100, 100⟩ (2 * n + 1) (startState 3)).y = -50) ∧
    ∀ n : ℕ, (stepN ⟨150, 150⟩ ⟨100, 100⟩ (n + 1) (startState 3)).goingDown ≠
      (stepN ⟨150, 150⟩ ⟨100, 100⟩ (n + 2) (startState 3)).goingDown := by
  refine ⟨by decide, by decide, fun n => by rw [(degenerate_period n).1], fun n => ?_⟩
  rcases Nat.even_or_odd n with ⟨m, hm⟩ | ⟨m, hm⟩
  · rw [show n + 1 = 2 * m + 1 from by omega, show n + 2 = 2 * m + 2 from by omega,
      (degenerate_period m).1, (degenerate_period m).2]
    decide
  · rw [show n + 1 = 2 * m + 2 from by omega, show n + 2 = 2 * (m + 1) + 1 from by omega,
      (degenerate_period m).2, (degenerate_period (m + 1)).1]
    decide

/-- Claim C7: `startAnimation` is idempotent on the motion state: applied
twice it yields exactly the same state as applied once, and from any state a
previous run can leave behind (velocity `±3`, any position, either phase) it
yields position (0,150), positive velocity `+3`, and the DESCENDING phase,
with no leaked sign or phase. -/
theorem startReset_idempotent (s : MotionState) (h : s.dx = 3 ∨ s.dx = -3) :
    startReset (startReset s) = startReset s ∧
    startReset s = ⟨0, 150, 3, true⟩ := by
  constructor
  · simp [startReset, abs_abs]
  · rcases h with h | h <;> simp [startReset, h]

theorem startReset_idempotent_witness :
    ((⟨42, 7, -3, false⟩ : MotionState).dx = 3 ∨ (⟨42, 7, -3, false⟩ : MotionState).dx = -3) ∧
    (startReset (startReset ⟨42, 7, -3, false⟩) = startReset ⟨42, 7, -3, false⟩ ∧
      startReset ⟨42, 7, -3, false⟩ = ⟨0, 150, 3, true⟩) :=
  ⟨Or.inr rfl, startReset_idempotent ⟨42, 7, -3, false⟩ (Or.inr rfl)⟩

/-- JS numeric parse of a form field as used by `startAnimation`: `none`
models `NaN` (absent or non-numeric input), `some x` a successful parse. -/
def jsNumOr (v : Option ℚ) (d : ℚ) : ℚ :=
  match v with
  | none => d
  | some x => if x = 0 then d else x

/-- `parseInt(document.getElementById("widthInput").value) || 150`. -/
def widthConfig (v : Option ℚ) : ℚ := jsNumOr v 150

/-- `parseInt(document.getElementById("heightInput").value) || 100`. -/
def heightConfig (v : Option ℚ) : ℚ := jsNumOr v 100

/-- `parseFloat(document.getElementById("opacityInput").value) || 1`. -/
def opacityConfig (v : Option ℚ) : ℚ := jsNumOr v 1

/-- Claim C8, counterexample: the `||` defaulting treats the number `0` as
falsy, so an opacity that parses to `0.0` (a value in the valid range
0.0–1.0) is replaced by the default `1` instead of being applied, and a width
that parses to the invalid value `-5` is NOT defaulted to 150 but used as
given — both directions of the claim's "exactly when absent or invalid"
fail. -/
theorem config_defaults_counterexample :
    opacityConfig (some 0) = 1 ∧ (1 : ℚ) ≠ 0 ∧
    widthConfig (some (-5)) = -5 ∧ (-5 : ℚ) ≠ 150 := by
  refine ⟨by simp [opacityConfig, jsNumOr], by norm_num, ?_, by norm_num⟩
  norm_num [widthConfig, jsNumOr]

/-- Claim C8, amended: the width, height and opacity inputs are defaulted to
150, 100 and 1 exactly when the parsed value is absent/non-numeric (`NaN`) or
`0` (JS falsy); every nonzero parsed value — including valid opacities in
(0,1] and invalid values such as negative widths — is used as given. -/
theorem config_defaults_falsy (x : ℚ) (hx : x ≠ 0) :
    widthConfig none = 150 ∧ heightConfig none = 100 ∧ opacityConfig none = 1 ∧
    widthConfig (some 0) = 150 ∧ heightConfig (some 0) = 100 ∧
    opacityConfig (some 0) = 1 ∧
    widthConfig (some x) = x ∧ heightConfig (some x) = x ∧
    opacityConfig (some x) = x := by
  simp [widthConfig, heightConfig, opacityConfig, jsNumOr, hx]

theorem config_defaults_falsy_witness :
    ((1 / 2 : ℚ) ≠ 0) ∧
    (widthConfig none = 150 ∧ heightConfig none = 100 ∧ opacityConfig none = 1 ∧
      widthConfig (some 0) = 150 ∧ heightConfig (some 0) = 100 ∧
      opacityConfig (some 0) = 1 ∧
      widthConfig (some (1 / 2)) = 1 / 2 ∧ heightConfig (some (1 / 2)) = 1 / 2 ∧
      opacityConfig (some (1 / 2)) = 1 / 2) :=
  ⟨by norm_num, config_defaults_falsy (1 / 2) (by norm_num)⟩

/-- Scheduler state: the motion state together with the number of outstanding
scheduled animation-frame invocations (`requestAnimationFrame` callbacks not
yet fired or cancelled).  The source keeps the handle of its single
outstanding invocation in `animationId`. -/
structure SchedState where
  motion : MotionState
  pending : ℕ
deriving DecidableEq

/-- One call of `moveLayer` as a whole: the update step on the motion state
followed by `animationId = requestAnimationFrame(moveLayer)`, which adds one
outstanding scheduled invocation. -/
def moveLayerCall (sz : Size) (b : Bounds) (st : SchedState) : SchedState :=
  { motion := moveLayer sz b st.motion, pending := st.pending + 1 }

/-- `cancelAnimationFrame(animationId)`: removes the outstanding scheduled
invocation, if any. -/
def cancelFrame (st : SchedState) : SchedState :=
  { motion := st.motion, pending := st.pending - 1 }

/-- The source's resize listener: `if (animationId) { cancelAnimationFrame
(animationId); moveLayer(); }`.  During an active run `animationId` holds the
handle of the single outstanding scheduled invocation, so the truthiness
guard is modelled as `pending ≠ 0`. -/
def onResize (sz : Size) (b : Bounds) (st : SchedState) : SchedState :=
  if st.pending ≠ 0 then moveLayerCall sz b (cancelFrame st) else st

/-- Claim C9: a resize notification during an active run (one outstanding
scheduled invocation) does not reset the motion state — the new motion state
is exactly one ordinary `moveLayer` step (with the freshly read bounds `b`)
applied to the old one, preserving everything else — and afterwards exactly
one scheduled invocation is outstanding. -/
theorem onResize_no_reset (sz : Size) (b : Bounds) (st : SchedState)
    (h : st.pending = 1) :
    (onResize sz b st).motion = moveLayer sz b st.motion ∧
    (onResize sz b st).pending = 1 := by
  unfold onResize moveLayerCall cancelFrame
  rw [h]
  simp

theorem onResize_no_reset_witness :
    (⟨⟨0, 150, 3, true⟩, 1⟩ : SchedState).pending = 1 ∧
    ((onResize ⟨150, 100⟩ ⟨800, 600⟩ ⟨⟨0, 150, 3, true⟩, 1⟩).motion =
      moveLayer ⟨150, 100⟩ ⟨800, 600⟩ (⟨⟨0, 150, 3, true⟩, 1⟩ : SchedState).motion ∧
      (onResize ⟨150, 100⟩ ⟨800, 600⟩ ⟨⟨0, 150, 3, true⟩, 1⟩).pending = 1) :=
  ⟨rfl, onResize_no_reset ⟨150, 100⟩ ⟨800, 600⟩ ⟨⟨0, 150, 3, true⟩, 1⟩ rfl⟩

end Bouncing
